import Mathlib

/-!
# bcache-tools: the superblock header `bcache.h`

A shallow embedding of the on-disk superblock declarations of `bcache.h`:
the `BITMASK` accessor generator, its five instantiations over
`cache_sb.flags`, `SB_IS_BDEV`, the magic constant and the `csum_set` checksum
span. The superblock decoder is not in the header and is modelled from the
specification.

Conventions.
* A `uint64_t` is a natural number below `2 ^ 64`; every operation that can
  leave that range reduces modulo `2 ^ 64` explicitly.
* A C shift whose count is not below the width of the (promoted) left operand
  has no defined result (C11 6.5.7p3); the shifts below return `none` there,
  and everything built from them is `Option`-valued.
* Arrays of fixed length `n` are functions out of `Fin n`.
-/

namespace Bcache

/-! ## 64-bit machine words -/

/-- The value of `(uint64_t) ~0`: all sixty-four bits set. -/
def U64_ONES : Nat := 2 ^ 64 - 1

/-- Bitwise complement `~x` of a `uint64_t`. -/
def not64 (x : Nat) : Nat := U64_ONES - x % 2 ^ 64

/-- Left shift `x << n` of a `uint64_t`; undefined for `n ≥ 64`. -/
def shl64 (x n : Nat) : Option Nat :=
  if n < 64 then some ((x <<< n) % 2 ^ 64) else none

/-- Right shift `x >> n` of a `uint64_t`; undefined for `n ≥ 64`. -/
def shr64 (x n : Nat) : Option Nat :=
  if n < 64 then some (x >>> n) else none

/-! ## The `BITMASK` generator -/

/-- The getter body of `BITMASK(name, type, field, offset, size)`:
`(k->field >> offset) & ~(((uint64_t) ~0) << size)`. -/
def BITMASK_get (offset size field : Nat) : Option Nat := do
  let shifted ← shr64 field offset
  let high ← shl64 U64_ONES size
  pure (shifted &&& not64 high)

/-- The setter body of `BITMASK(name, type, field, offset, size)`:
`k->field &= ~(~((uint64_t) ~0 << size) << offset); k->field |= v << offset;`
returning the new value of the field. -/
def BITMASK_set (offset size field v : Nat) : Option Nat := do
  let high ← shl64 U64_ONES size
  let window ← shl64 (not64 high) offset
  let cleared := field &&& not64 window
  let placed ← shl64 v offset
  pure (cleared ||| placed)

/-! ## Constants -/

def BCACHE_SB_VERSION_CDEV : Nat := 0
def BCACHE_SB_VERSION_BDEV : Nat := 1
def BCACHE_SB_VERSION_CDEV_WITH_UUID : Nat := 3
def BCACHE_SB_VERSION_BDEV_WITH_OFFSET : Nat := 4
def BCACHE_SB_MAX_VERSION : Nat := 4

def SB_LABEL_SIZE : Nat := 32
def SB_JOURNAL_BUCKETS : Nat := 256

def CACHE_REPLACEMENT_LRU : Nat := 0
def CACHE_REPLACEMENT_FIFO : Nat := 1
def CACHE_REPLACEMENT_RANDOM : Nat := 2

def CACHE_MODE_WRITETHROUGH : Nat := 0
def CACHE_MODE_WRITEBACK : Nat := 1
def CACHE_MODE_WRITEAROUND : Nat := 2
def CACHE_MODE_NONE : Nat := 3

def BDEV_STATE_NONE : Nat := 0
def BDEV_STATE_CLEAN : Nat := 1
def BDEV_STATE_DIRTY : Nat := 2
def BDEV_STATE_STALE : Nat := 3

/-! ## The superblock record -/

/-- The record `struct cache_sb`. Each anonymous union is one field, named
after its first member: `set_uuid` (also `set_magic`), `nbuckets` (also
`data_offset`) and `keys` (also `njournal_buckets`). -/
structure cache_sb where
  csum : Nat
  offset : Nat
  version : Nat
  magic : Fin 16 → Nat
  uuid : Fin 16 → Nat
  set_uuid : Fin 16 → Nat
  label : Fin SB_LABEL_SIZE → Nat
  flags : Nat
  seq : Nat
  pad : Fin 8 → Nat
  nbuckets : Nat
  block_size : Nat
  bucket_size : Nat
  nr_in_set : Nat
  nr_this_dev : Nat
  last_mount : Nat
  first_bucket : Nat
  keys : Nat
  d : Fin SB_JOURNAL_BUCKETS → Nat

/-- The backing-device member `data_offset` of the payload union. -/
def cache_sb.data_offset (sb : cache_sb) : Nat := sb.nbuckets

/-- The member `njournal_buckets` of the union it shares with `keys`. -/
def cache_sb.njournal_buckets (sb : cache_sb) : Nat := sb.keys

/-- The function `SB_IS_BDEV`. -/
def SB_IS_BDEV (sb : cache_sb) : Bool :=
  sb.version == BCACHE_SB_VERSION_BDEV
    || sb.version == BCACHE_SB_VERSION_BDEV_WITH_OFFSET

/-! ## The five `BITMASK` instantiations over `flags` -/

/-- The store `k->field = f` of a generated setter, for `field = flags`. -/
def store_flags (k : cache_sb) (f : Nat) : cache_sb := { k with flags := f }

/-- Getter of `BITMASK(CACHE_SYNC, struct cache_sb, flags, 0, 1)`. -/
def CACHE_SYNC (k : cache_sb) : Option Nat := BITMASK_get 0 1 k.flags

/-- Setter of `BITMASK(CACHE_SYNC, struct cache_sb, flags, 0, 1)`. -/
def SET_CACHE_SYNC (k : cache_sb) (v : Nat) : Option cache_sb :=
  (BITMASK_set 0 1 k.flags v).map (store_flags k)

/-- Getter of `BITMASK(CACHE_DISCARD, struct cache_sb, flags, 1, 1)`. -/
def CACHE_DISCARD (k : cache_sb) : Option Nat := BITMASK_get 1 1 k.flags

/-- Setter of `BITMASK(CACHE_DISCARD, struct cache_sb, flags, 1, 1)`. -/
def SET_CACHE_DISCARD (k : cache_sb) (v : Nat) : Option cache_sb :=
  (BITMASK_set 1 1 k.flags v).map (store_flags k)

/-- Getter of `BITMASK(CACHE_REPLACEMENT, struct cache_sb, flags, 2, 3)`. -/
def CACHE_REPLACEMENT (k : cache_sb) : Option Nat := BITMASK_get 2 3 k.flags

/-- Setter of `BITMASK(CACHE_REPLACEMENT, struct cache_sb, flags, 2, 3)`. -/
def SET_CACHE_REPLACEMENT (k : cache_sb) (v : Nat) : Option cache_sb :=
  (BITMASK_set 2 3 k.flags v).map (store_flags k)

/-- Getter of `BITMASK(BDEV_CACHE_MODE, struct cache_sb, flags, 0, 4)`. -/
def BDEV_CACHE_MODE (k : cache_sb) : Option Nat := BITMASK_get 0 4 k.flags

/-- Setter of `BITMASK(BDEV_CACHE_MODE, struct cache_sb, flags, 0, 4)`. -/
def SET_BDEV_CACHE_MODE (k : cache_sb) (v : Nat) : Option cache_sb :=
  (BITMASK_set 0 4 k.flags v).map (store_flags k)

/-- Getter of `BITMASK(BDEV_STATE, struct cache_sb, flags, 61, 2)`. -/
def BDEV_STATE (k : cache_sb) : Option Nat := BITMASK_get 61 2 k.flags

/-- Setter of `BITMASK(BDEV_STATE, struct cache_sb, flags, 61, 2)`. -/
def SET_BDEV_STATE (k : cache_sb) (v : Nat) : Option cache_sb :=
  (BITMASK_set 61 2 k.flags v).map (store_flags k)

/-- Two records agree on every member other than `flags`. -/
def same_but_flags (a b : cache_sb) : Prop :=
  b.csum = a.csum ∧ b.offset = a.offset ∧ b.version = a.version ∧
  b.magic = a.magic ∧ b.uuid = a.uuid ∧ b.set_uuid = a.set_uuid ∧
  b.label = a.label ∧ b.seq = a.seq ∧ b.pad = a.pad ∧
  b.nbuckets = a.nbuckets ∧ b.data_offset = a.data_offset ∧
  b.block_size = a.block_size ∧ b.bucket_size = a.bucket_size ∧
  b.nr_in_set = a.nr_in_set ∧ b.nr_this_dev = a.nr_this_dev ∧
  b.last_mount = a.last_mount ∧ b.first_bucket = a.first_bucket ∧
  b.njournal_buckets = a.njournal_buckets ∧ b.keys = a.keys ∧ b.d = a.d

/-! ## The memory image of the record and `csum_set`

`csum_set` addresses the record as raw bytes, so the record is given its
memory image: members in declaration order, each at its natural alignment
(which leaves no padding in `struct cache_sb`), integers little-endian as in
the on-disk format. -/

/-- The `n` bytes of an `n`-byte unsigned integer, least significant first. -/
def le_bytes (n v : Nat) : List Nat :=
  (List.range n).map fun k => (v / 256 ^ k) % 256

/-- The image of a `uint8_t` array. -/
def u8_array_bytes {n : Nat} (a : Fin n → Nat) : List Nat :=
  (List.ofFn a).map (· % 256)

/-- The image of a `uint64_t` array. -/
def u64_array_bytes {n : Nat} (a : Fin n → Nat) : List Nat :=
  (List.ofFn a).flatMap (le_bytes 8)

/-- The image of the members from `offset` to `keys`: all that lies between
the `csum` member and the array `d`. -/
def cache_sb.fixed_bytes (sb : cache_sb) : List Nat :=
  le_bytes 8 sb.offset ++ le_bytes 8 sb.version ++
  u8_array_bytes sb.magic ++ u8_array_bytes sb.uuid ++ u8_array_bytes sb.set_uuid ++
  u8_array_bytes sb.label ++
  le_bytes 8 sb.flags ++ le_bytes 8 sb.seq ++ u64_array_bytes sb.pad ++
  le_bytes 8 sb.nbuckets ++ le_bytes 2 sb.block_size ++ le_bytes 2 sb.bucket_size ++
  le_bytes 2 sb.nr_in_set ++ le_bytes 2 sb.nr_this_dev ++
  le_bytes 4 sb.last_mount ++ le_bytes 2 sb.first_bucket ++ le_bytes 2 sb.keys

/-- The memory image of a whole `struct cache_sb`. -/
def cache_sb.bytes (sb : cache_sb) : List Nat :=
  le_bytes 8 sb.csum ++ sb.fixed_bytes ++ u64_array_bytes sb.d

/-- The byte offset of the member `d` in `struct cache_sb`: the sizes of the
members before it, in declaration order. -/
def offsetof_d : Nat :=
  8 + 8 + 8 + 16 + 16 + 16 + SB_LABEL_SIZE + 8 + 8 + 8 * 8
    + (8 + 2 + 2 + 2 + 2) + 4 + 2 + 2

/-- The value of `sizeof(struct cache_sb)`. -/
def sizeof_cache_sb : Nat := offsetof_d + 8 * SB_JOURNAL_BUCKETS

/-- The address `node(i, j)`, that is `(void *) ((i)->d + (j))`, as a byte
offset from the start of the record `i`. -/
def node (_i : cache_sb) (j : Nat) : Nat := offsetof_d + 8 * j

/-- The address `end(i)`, that is `node(i, (i)->keys)`, as a byte offset from
the start of the record. -/
def end_ (i : cache_sb) : Nat := node i i.keys

/-- The pointer and length `csum_set(i)` hands to `crc64`, the pointer as a
byte offset from the start of the record:
`((void *) (i)) + 8` and `((void *) end(i)) - (((void *) (i)) + 8)`. -/
def csum_span (i : cache_sb) : Nat × Nat := (8, end_ i - 8)

/-- The value `csum_set(i)`: `crc64` of the bytes of the span. `crc64` is
declared in the header and defined elsewhere, so it is a parameter: a
function of the bytes it is handed. A span that leaves the record reads
memory that is not part of it, and has no defined result. -/
def csum_set (crc64 : List Nat → Nat) (i : cache_sb) : Option Nat :=
  let (start, len) := csum_span i
  if start + len ≤ i.bytes.length then
    some (crc64 ((i.bytes.drop start).take len))
  else none

/-- The field `g` is the field `f` with its bits `[offset, offset + width)`
replaced by the bits `[0, width)` of `v` and every other bit kept. -/
def window_replaced (offset width f v g : Nat) : Prop :=
  ∀ i, g.testBit i =
    if offset ≤ i ∧ i < offset + width then v.testBit (i - offset) else f.testBit i

/-- A record with every member zero. -/
def sb_zero : cache_sb :=
  { csum := 0, offset := 0, version := 0, magic := fun _ => 0, uuid := fun _ => 0,
    set_uuid := fun _ => 0, label := fun _ => 0, flags := 0, seq := 0,
    pad := fun _ => 0, nbuckets := 0, block_size := 0, bucket_size := 0,
    nr_in_set := 0, nr_this_dev := 0, last_mount := 0, first_bucket := 0,
    keys := 0, d := fun _ => 0 }

/-! ## The magic constant -/

/-- The value an initialiser `v` takes in an object of type `char`, an 8-bit
type that is signed on some platforms and unsigned on others. -/
def char_of (char_signed : Bool) (v : Nat) : Int :=
  if char_signed && decide (128 ≤ v % 256) then ((v % 256 : Nat) : Int) - 256
  else ((v % 256 : Nat) : Int)

/-- A `char` read as an `unsigned char`. -/
def to_uchar (c : Int) : Nat := (c % 256).toNat

/-- The array `static const char bcache_magic[]`; its length is the number of
its initialisers. -/
def bcache_magic (char_signed : Bool) : List Int :=
  [0xc6, 0x85, 0x73, 0xf6, 0x4e, 0x1a, 0x45, 0xca,
   0x82, 0x65, 0xf5, 0x7f, 0x48, 0xba, 0x6d, 0x81].map (char_of char_signed)

/-! ## The superblock decoder

The header declares the record and its constants; the code that reads a
superblock and checks it lies outside the header. -/

/-- The failure modes of `decode`. -/
inductive DecodeError where
  | BadMagic
  | UnsupportedVersion
  | ChecksumMismatch

/-- Modelled from the spec: the recognized versions of the decoder, which is
not part of the header. Section 6: "version values 0/1/3/4 recognized (2 is
reserved/historical and must be rejected as unsupported)"; they are the four
`BCACHE_SB_VERSION_*` constants of the header. -/
def version_recognized (v : Nat) : Bool :=
  v == BCACHE_SB_VERSION_CDEV || v == BCACHE_SB_VERSION_BDEV
    || v == BCACHE_SB_VERSION_CDEV_WITH_UUID || v == BCACHE_SB_VERSION_BDEV_WITH_OFFSET

/-- Modelled from the spec: the operation `decode` of section 4.3, which is
not part of the header. It "validates magic (exact 16-byte match), validates
`version` is within the recognized set, computes the checksum over the
applicable region and compares to the stored `checksum`, and only if all
three pass exposes the typed view", with the failure modes `BadMagic`,
`UnsupportedVersion` and `ChecksumMismatch`; a bad magic is reported before
anything else and a bad checksum only when magic and version are good
(section 8). The input is the record as read from the raw bytes. -/
def decode (char_signed : Bool) (crc64 : List Nat → Nat) (sb : cache_sb) :
    Except DecodeError cache_sb :=
  if u8_array_bytes sb.magic ≠ (bcache_magic char_signed).map to_uchar then
    Except.error DecodeError.BadMagic
  else if version_recognized sb.version = false then
    Except.error DecodeError.UnsupportedVersion
  else if csum_set crc64 sb ≠ some sb.csum then
    Except.error DecodeError.ChecksumMismatch
  else Except.ok sb

/-- A record whose magic is `bcache_magic` and whose version is 2. -/
def sb_version_2 : cache_sb :=
  { sb_zero with
    magic := fun j =>
      [0xc6, 0x85, 0x73, 0xf6, 0x4e, 0x1a, 0x45, 0xca,
       0x82, 0x65, 0xf5, 0x7f, 0x48, 0xba, 0x6d, 0x81].getD j.val 0,
    version := 2 }

/-! ## Shapes of the algebraic laws -/

/-- The last write wins at `sb` for a setter and the arguments `a` then `b`:
writing `a` and then `b` is defined and gives the record that writing `b`
alone gives. -/
def last_write_wins (set : cache_sb → Nat → Option cache_sb) (sb : cache_sb)
    (a b : Nat) : Prop :=
  ∃ r, set sb b = some r ∧ (set sb a).bind (fun s => set s b) = some r

/-- The field a generated setter leaves behind once its shifts are defined
(offset and size below 64): the body of `BITMASK_set` with the mask
`~(~0 << size)` evaluated to `2 ^ size - 1`. -/
def BITMASK_written (offset size field v : Nat) : Nat :=
  (field &&& not64 (((2 ^ size - 1) <<< offset) % 2 ^ 64)) ||| (v <<< offset) % 2 ^ 64

/-- Two setters commute at `sb` for the arguments `a` and `b`: both orders
are defined and give one and the same record, and each setter leaves the
result of the getter of the other as it was. -/
def setters_commute (set1 set2 : cache_sb → Nat → Option cache_sb)
    (get1 get2 : cache_sb → Option Nat) (sb : cache_sb) (a b : Nat) : Prop :=
  (∃ r, (set1 sb a).bind (fun s => set2 s b) = some r ∧
        (set2 sb b).bind (fun s => set1 s a) = some r) ∧
  (set1 sb a).bind get2 = get2 sb ∧
  (set2 sb b).bind get1 = get1 sb

/-! ## Bit-level facts about the generator -/

/-- Bit `i` of the complement of a 64-bit word. -/
theorem testBit_not64 (x i : Nat) :
    (not64 x).testBit i = (decide (i < 64) && !x.testBit i) := by
  have h : x % 2 ^ 64 < 2 ^ 64 := Nat.mod_lt _ (by decide)
  have e : not64 x = 2 ^ 64 - (x % 2 ^ 64 + 1) := by
    unfold not64 U64_ONES; omega
  rw [e, Nat.testBit_two_pow_sub_succ h, Nat.testBit_mod_two_pow]
  cases decide (i < 64) <;> simp

/-- The mask `~(((uint64_t) ~0) << size)` is `2 ^ size - 1` for `size < 64`. -/
theorem mask_eq (size : Nat) (hs : size < 64) :
    not64 ((U64_ONES <<< size) % 2 ^ 64) = 2 ^ size - 1 := by
  apply Nat.eq_of_testBit_eq
  intro i
  rw [testBit_not64, Nat.testBit_mod_two_pow, Nat.testBit_shiftLeft, U64_ONES,
    Nat.testBit_two_pow_sub_one, Nat.testBit_two_pow_sub_one]
  by_cases h1 : i < 64 <;> by_cases h2 : i < size <;> simp [h1, h2] <;> omega

theorem BITMASK_get_eq (offset size field : Nat) (ho : offset < 64) (hs : size < 64) :
    BITMASK_get offset size field = some ((field >>> offset) &&& (2 ^ size - 1)) := by
  have hm := mask_eq size hs
  simp only [BITMASK_get, shr64, shl64, if_pos ho, if_pos hs, Option.bind_eq_bind,
    Option.some_bind, Option.pure_def, hm]

theorem BITMASK_set_eq (offset size field v : Nat) (ho : offset < 64) (hs : size < 64) :
    BITMASK_set offset size field v =
      some ((field &&& not64 (((2 ^ size - 1) <<< offset) % 2 ^ 64))
        ||| (v <<< offset) % 2 ^ 64) := by
  have hm := mask_eq size hs
  simp only [BITMASK_set, shl64, if_pos ho, if_pos hs, Option.bind_eq_bind,
    Option.some_bind, Option.pure_def, hm]

/-- Bit `i` of the field written by the setter. -/
theorem testBit_set (offset size field v i : Nat) :
    ((field &&& not64 (((2 ^ size - 1) <<< offset) % 2 ^ 64))
        ||| (v <<< offset) % 2 ^ 64).testBit i =
      (decide (i < 64) &&
        ((field.testBit i && !(decide (offset ≤ i) && decide (i - offset < size)))
          || (decide (offset ≤ i) && v.testBit (i - offset)))) := by
  simp only [Nat.testBit_or, Nat.testBit_and, testBit_not64, Nat.testBit_mod_two_pow,
    Nat.testBit_shiftLeft, Nat.testBit_two_pow_sub_one, ge_iff_le]
  by_cases h1 : i < 64 <;> by_cases h2 : offset ≤ i <;> simp [h1, h2]


/-- Bit `i` of what the getter reads back. -/
theorem testBit_get (offset size field i : Nat) :
    ((field >>> offset) &&& (2 ^ size - 1)).testBit i =
      (field.testBit (offset + i) && decide (i < size)) := by
  rw [Nat.testBit_and, Nat.testBit_shiftRight, Nat.testBit_two_pow_sub_one]

theorem testBit_of_lt_two_pow (x w i : Nat) (hx : x < 2 ^ w) (hi : w ≤ i) :
    x.testBit i = false :=
  Nat.testBit_lt_two_pow (Nat.lt_of_lt_of_le hx (Nat.pow_le_pow_right (by decide) hi))

/-- The getter after the setter, for any argument: the low `w` bits of it. -/
theorem get_set_mod (o w field v : Nat) (ho : o + w ≤ 64) :
    ((((field &&& not64 (((2 ^ w - 1) <<< o) % 2 ^ 64))
        ||| (v <<< o) % 2 ^ 64) >>> o) &&& (2 ^ w - 1)) = v % 2 ^ w := by
  apply Nat.eq_of_testBit_eq
  intro i
  rw [testBit_get, testBit_set, Nat.testBit_mod_two_pow]
  by_cases hi : i < w
  · have h1 : o + i < 64 := by omega
    have h3 : o + i - o = i := by omega
    simp [hi, h1, h3]
  · simp [hi]

/-- The getter after the setter of the same window, for an in-range argument. -/
theorem get_set_eq (o w field v : Nat) (ho : o + w ≤ 64) (hv : v < 2 ^ w) :
    ((((field &&& not64 (((2 ^ w - 1) <<< o) % 2 ^ 64))
        ||| (v <<< o) % 2 ^ 64) >>> o) &&& (2 ^ w - 1)) = v := by
  rw [get_set_mod o w field v ho, Nat.mod_eq_of_lt hv]

/-- The getter of one window after the setter of a disjoint one, for an
in-range argument: what the getter read before. -/
theorem get_set_other (o1 w1 o2 w2 field v : Nat) (h2 : o2 + w2 ≤ 64)
    (hv : v < 2 ^ w1) (hd : o2 + w2 ≤ o1 ∨ o1 + w1 ≤ o2) :
    ((((field &&& not64 (((2 ^ w1 - 1) <<< o1) % 2 ^ 64))
        ||| (v <<< o1) % 2 ^ 64) >>> o2) &&& (2 ^ w2 - 1)) =
      ((field >>> o2) &&& (2 ^ w2 - 1)) := by
  apply Nat.eq_of_testBit_eq
  intro i
  rw [testBit_get, testBit_get, testBit_set]
  by_cases hi : i < w2
  · have h64 : o2 + i < 64 := by omega
    by_cases h1 : o1 ≤ o2 + i
    · have h3 : ¬ (o2 + i - o1 < w1) := by omega
      have := testBit_of_lt_two_pow v w1 (o2 + i - o1) hv (by omega)
      simp [hi, h64, h1, h3, this]
    · simp [hi, h64, h1]
  · simp [hi]

/-- The setter, for an in-range value, replaces the window and nothing else. -/
theorem set_window (o w f v : Nat) (ho : o + w ≤ 64) (hf : f < 2 ^ 64)
    (hv : v < 2 ^ w) :
    window_replaced o w f v
      ((f &&& not64 (((2 ^ w - 1) <<< o) % 2 ^ 64)) ||| (v <<< o) % 2 ^ 64) := by
  intro i
  rw [testBit_set]
  by_cases h64 : i < 64
  · by_cases h1 : o ≤ i
    · by_cases h2 : i - o < w
      · have h3 : i < o + w := by omega
        simp [h64, h1, h2, h3]
      · have h3 : ¬ i < o + w := by omega
        have := testBit_of_lt_two_pow v w (i - o) hv (by omega)
        simp [h64, h1, h2, h3, this]
    · simp [h64, h1]
  · have hfi := testBit_of_lt_two_pow f 64 i hf (by omega)
    have h3 : ¬ i < o + w := by omega
    simp [h64, h3, hfi]

/-- A generated setter on the record, once the shifts are known to be defined. -/
theorem setter_eq (o w : Nat) (k : cache_sb) (v : Nat) (ho : o < 64) (hw : w < 64) :
    (BITMASK_set o w k.flags v).map (store_flags k) =
      some (store_flags k
        ((k.flags &&& not64 (((2 ^ w - 1) <<< o) % 2 ^ 64)) ||| (v <<< o) % 2 ^ 64)) := by
  rw [BITMASK_set_eq o w k.flags v ho hw]; rfl

theorem same_but_flags_store (k : cache_sb) (g : Nat) :
    same_but_flags k (store_flags k g) := by
  simp [same_but_flags, store_flags, cache_sb.data_offset, cache_sb.njournal_buckets]

/-! ## The claims -/

/-- C1: for every `cache_sb`, each of the five generated getters returns
exactly `(flags >> offset) & (2 ^ width - 1)`: `CACHE_SYNC` at offset 0 width 1,
`CACHE_DISCARD` at 1/1, `CACHE_REPLACEMENT` at 2/3, `BDEV_CACHE_MODE` at 0/4 and
`BDEV_STATE` at 61/2. -/
theorem C1_getter_value (sb : cache_sb) :
    CACHE_SYNC sb = some ((sb.flags >>> 0) &&& (2 ^ 1 - 1)) ∧
    CACHE_DISCARD sb = some ((sb.flags >>> 1) &&& (2 ^ 1 - 1)) ∧
    CACHE_REPLACEMENT sb = some ((sb.flags >>> 2) &&& (2 ^ 3 - 1)) ∧
    BDEV_CACHE_MODE sb = some ((sb.flags >>> 0) &&& (2 ^ 4 - 1)) ∧
    BDEV_STATE sb = some ((sb.flags >>> 61) &&& (2 ^ 2 - 1)) :=
  ⟨BITMASK_get_eq 0 1 sb.flags (by decide) (by decide),
   BITMASK_get_eq 1 1 sb.flags (by decide) (by decide),
   BITMASK_get_eq 2 3 sb.flags (by decide) (by decide),
   BITMASK_get_eq 0 4 sb.flags (by decide) (by decide),
   BITMASK_get_eq 61 2 sb.flags (by decide) (by decide)⟩

/-- C2, as stated, fails at width 64: with offset 0 and width 64 the mask
`((uint64_t) ~0) << 64` is a shift by the full width of the operand, so setter
and getter have no defined result and the round trip does not return `x`. -/
theorem C2_width_64_undefined :
    1 ≤ 64 ∧ 0 + 64 ≤ 64 ∧ (5 : Nat) < 2 ^ 64 ∧ (7 : Nat) < 2 ^ 64 ∧
    BITMASK_set 0 64 5 7 = none ∧ BITMASK_get 0 64 5 = none ∧
    (BITMASK_set 0 64 5 7).bind (BITMASK_get 0 64) ≠ some 7 := by
  decide

/-- C2, amended: for every offset and width with `1 ≤ width ≤ 63` and
`offset + width ≤ 64`, every field value and every `x < 2 ^ width`, the
generated setter with `x` followed by the generated getter returns `x`. -/
theorem C2_set_then_get (offset width f x : Nat) (_hw : 1 ≤ width) (hw63 : width ≤ 63)
    (h : offset + width ≤ 64) (hx : x < 2 ^ width) :
    (BITMASK_set offset width f x).bind (BITMASK_get offset width) = some x := by
  rw [BITMASK_set_eq offset width f x (by omega) (by omega), Option.some_bind,
    BITMASK_get_eq offset width _ (by omega) (by omega), get_set_eq offset width f x h hx]

/-- C2 at the window of `BDEV_STATE` (offset 61, width 2), on a field of all ones. -/
theorem C2_set_then_get_witness :
    (BITMASK_set 61 2 (2 ^ 64 - 1) 2).bind (BITMASK_get 61 2) = some 2 :=
  C2_set_then_get 61 2 (2 ^ 64 - 1) 2 (by decide) (by decide) (by decide) (by decide)

/-- C3, as stated, fails at width 64: with offset 0 and width 64 the setter
shifts by the full width of its operand and leaves no defined field behind. -/
theorem C3_width_64_undefined :
    1 ≤ 64 ∧ 0 + 64 ≤ 64 ∧ (5 : Nat) < 2 ^ 64 ∧ (7 : Nat) < 2 ^ 64 ∧
    ¬ ∃ g, BITMASK_set 0 64 5 7 = some g ∧
        ∀ i, (i < 0 ∨ 0 + 64 ≤ i) → g.testBit i = (5 : Nat).testBit i := by
  refine ⟨by decide, by decide, by decide, by decide, ?_⟩
  rintro ⟨g, hg, -⟩
  have hn : BITMASK_set 0 64 5 7 = none := by decide
  rw [hn] at hg
  cases hg

/-- C3, amended: for every offset and width with `1 ≤ width ≤ 63` and
`offset + width ≤ 64`, every 64-bit field value `f` and every `x < 2 ^ width`,
the generated setter writes a field in which every bit at a position outside
`[offset, offset + width)` has the value it has in `f`. -/
theorem C3_set_frame (offset width f x : Nat) (_hw : 1 ≤ width) (hw63 : width ≤ 63)
    (h : offset + width ≤ 64) (hf : f < 2 ^ 64) (hx : x < 2 ^ width) :
    ∃ g, BITMASK_set offset width f x = some g ∧
      ∀ i, (i < offset ∨ offset + width ≤ i) → g.testBit i = f.testBit i := by
  refine ⟨_, BITMASK_set_eq offset width f x (by omega) (by omega), ?_⟩
  intro i hi
  rw [set_window offset width f x h hf hx i, if_neg (by omega)]

/-- C3 at the window of `CACHE_REPLACEMENT` (offset 2, width 3), field 45, value 1. -/
theorem C3_set_frame_witness :
    ∃ g, BITMASK_set 2 3 45 1 = some g ∧
      ∀ i, (i < 2 ∨ 2 + 3 ≤ i) → g.testBit i = (45 : Nat).testBit i :=
  C3_set_frame 2 3 45 1 (by decide) (by decide) (by decide) (by decide) (by decide)

/-- C4, as stated, fails for an argument wider than the field: on a record
with `flags = 0`, `SET_CACHE_SYNC(sb, 2)` (offset 0, width 1) sets bit 1 of
`flags`, a bit outside `[0, 1)`. -/
theorem C4_wide_value_spills :
    sb_zero.flags < 2 ^ 64 ∧ (2 : Nat) < 2 ^ 64 ∧
    ¬ ∃ sb', SET_CACHE_SYNC sb_zero 2 = some sb' ∧
        ∀ i, (i < 0 ∨ 0 + 1 ≤ i) → sb'.flags.testBit i = sb_zero.flags.testBit i := by
  refine ⟨by decide, by decide, ?_⟩
  rintro ⟨sb', hs, hb⟩
  have hv : SET_CACHE_SYNC sb_zero 2 = some (store_flags sb_zero 2) := by
    rw [SET_CACHE_SYNC, setter_eq 0 1 sb_zero 2 (by decide) (by decide)]; rfl
  rw [hv] at hs
  cases hs
  have h1 := hb 1 (Or.inr (by decide))
  revert h1
  decide

/-- C4, amended: for every `cache_sb` and every argument `v` that fits in the
width of the accessor, each generated setter returns a record whose `flags` has
the bits `[offset, offset + width)` replaced by `v` shifted into place and every
other bit as before. -/
theorem C4_setter_window (sb : cache_sb) (v : Nat) (hf : sb.flags < 2 ^ 64) :
    (v < 2 ^ 1 → ∃ sb', SET_CACHE_SYNC sb v = some sb' ∧
      window_replaced 0 1 sb.flags v sb'.flags) ∧
    (v < 2 ^ 1 → ∃ sb', SET_CACHE_DISCARD sb v = some sb' ∧
      window_replaced 1 1 sb.flags v sb'.flags) ∧
    (v < 2 ^ 3 → ∃ sb', SET_CACHE_REPLACEMENT sb v = some sb' ∧
      window_replaced 2 3 sb.flags v sb'.flags) ∧
    (v < 2 ^ 4 → ∃ sb', SET_BDEV_CACHE_MODE sb v = some sb' ∧
      window_replaced 0 4 sb.flags v sb'.flags) ∧
    (v < 2 ^ 2 → ∃ sb', SET_BDEV_STATE sb v = some sb' ∧
      window_replaced 61 2 sb.flags v sb'.flags) :=
  ⟨fun hv => ⟨_, setter_eq 0 1 sb v (by decide) (by decide),
      set_window 0 1 sb.flags v (by decide) hf hv⟩,
   fun hv => ⟨_, setter_eq 1 1 sb v (by decide) (by decide),
      set_window 1 1 sb.flags v (by decide) hf hv⟩,
   fun hv => ⟨_, setter_eq 2 3 sb v (by decide) (by decide),
      set_window 2 3 sb.flags v (by decide) hf hv⟩,
   fun hv => ⟨_, setter_eq 0 4 sb v (by decide) (by decide),
      set_window 0 4 sb.flags v (by decide) hf hv⟩,
   fun hv => ⟨_, setter_eq 61 2 sb v (by decide) (by decide),
      set_window 61 2 sb.flags v (by decide) hf hv⟩⟩

/-- C4 at `SET_CACHE_REPLACEMENT(sb, 5)` on the all-zero record. -/
theorem C4_setter_window_witness :
    ∃ sb', SET_CACHE_REPLACEMENT sb_zero 5 = some sb' ∧
      window_replaced 2 3 sb_zero.flags 5 sb'.flags :=
  (C4_setter_window sb_zero 5 (by decide)).2.2.1 (by decide)

/-- C5: for every `cache_sb`, `SB_IS_BDEV(sb)` is true if and only if
`sb.version` is 1 (`BCACHE_SB_VERSION_BDEV`) or 4
(`BCACHE_SB_VERSION_BDEV_WITH_OFFSET`); it is false for the cache-device
versions 0 and 3, and two records with the same `version` get the same answer
whatever their other members. -/
theorem C5_SB_IS_BDEV (sb : cache_sb) :
    (SB_IS_BDEV sb = true ↔ sb.version = 1 ∨ sb.version = 4) ∧
    (sb.version = 0 ∨ sb.version = 3 → SB_IS_BDEV sb = false) ∧
    (∀ sb' : cache_sb, sb'.version = sb.version → SB_IS_BDEV sb' = SB_IS_BDEV sb) := by
  refine ⟨?_, ?_, ?_⟩
  · simp [SB_IS_BDEV, BCACHE_SB_VERSION_BDEV, BCACHE_SB_VERSION_BDEV_WITH_OFFSET]
  · rintro (h | h) <;>
      simp [SB_IS_BDEV, BCACHE_SB_VERSION_BDEV, BCACHE_SB_VERSION_BDEV_WITH_OFFSET, h]
  · intro sb' h
    simp [SB_IS_BDEV, h]

/-- C6: for every `cache_sb` and every argument `v`, each of the five generated
setters returns a record that differs from the one it was given in `flags` at
most: `csum`, `offset`, `version`, `magic`, `uuid`, `set_uuid`, `label`, `seq`,
`pad`, the payload union, `last_mount`, `first_bucket`,
`njournal_buckets`/`keys` and `d` are unchanged, so the stored `csum` is not
recomputed. -/
theorem C6_setters_keep_other_members (sb : cache_sb) (v : Nat) :
    (∃ sb', SET_CACHE_SYNC sb v = some sb' ∧ same_but_flags sb sb') ∧
    (∃ sb', SET_CACHE_DISCARD sb v = some sb' ∧ same_but_flags sb sb') ∧
    (∃ sb', SET_CACHE_REPLACEMENT sb v = some sb' ∧ same_but_flags sb sb') ∧
    (∃ sb', SET_BDEV_CACHE_MODE sb v = some sb' ∧ same_but_flags sb sb') ∧
    (∃ sb', SET_BDEV_STATE sb v = some sb' ∧ same_but_flags sb sb') :=
  ⟨⟨_, setter_eq 0 1 sb v (by decide) (by decide), same_but_flags_store sb _⟩,
   ⟨_, setter_eq 1 1 sb v (by decide) (by decide), same_but_flags_store sb _⟩,
   ⟨_, setter_eq 2 3 sb v (by decide) (by decide), same_but_flags_store sb _⟩,
   ⟨_, setter_eq 0 4 sb v (by decide) (by decide), same_but_flags_store sb _⟩,
   ⟨_, setter_eq 61 2 sb v (by decide) (by decide), same_but_flags_store sb _⟩⟩

theorem length_le_bytes (n v : Nat) : (le_bytes n v).length = n := by
  simp [le_bytes]

theorem length_u8_array_bytes {n : Nat} (a : Fin n → Nat) :
    (u8_array_bytes a).length = n := by
  simp [u8_array_bytes]

theorem take_flatMap_le_bytes (l : List Nat) (k : Nat) :
    (l.flatMap (le_bytes 8)).take (8 * k) = (l.take k).flatMap (le_bytes 8) := by
  induction l generalizing k with
  | nil => simp
  | cons a l ih =>
    cases k with
    | zero => simp
    | succ k =>
      have e : 8 * (k + 1) = (le_bytes 8 a).length + 8 * k := by
        rw [length_le_bytes]; omega
      rw [List.flatMap_cons, e, List.take_append, ih, List.take_succ_cons, List.flatMap_cons]

theorem length_flatMap_le_bytes (l : List Nat) :
    (l.flatMap (le_bytes 8)).length = 8 * l.length := by
  induction l with
  | nil => simp
  | cons a l ih =>
    rw [List.flatMap_cons, List.length_append, ih, length_le_bytes, List.length_cons]; omega

theorem length_u64_array_bytes {n : Nat} (a : Fin n → Nat) :
    (u64_array_bytes a).length = 8 * n := by
  rw [u64_array_bytes, length_flatMap_le_bytes, List.length_ofFn]

theorem length_fixed_bytes (sb : cache_sb) : sb.fixed_bytes.length = 200 := by
  simp [cache_sb.fixed_bytes, length_le_bytes, length_u8_array_bytes,
    length_u64_array_bytes, SB_LABEL_SIZE]

theorem length_bytes (sb : cache_sb) : sb.bytes.length = 2256 := by
  simp [cache_sb.bytes, length_le_bytes, length_fixed_bytes, length_u64_array_bytes,
    SB_JOURNAL_BUCKETS]

theorem take_ofFn_congr {n : Nat} (a b : Fin n → Nat) (k : Nat)
    (h : ∀ j : Fin n, j.val < k → b j = a j) :
    (List.ofFn b).take k = (List.ofFn a).take k := by
  apply List.ext_getElem
  · simp
  · intro m h1 h2
    simp only [List.getElem_take, List.getElem_ofFn]
    have hm : m < k := by
      rw [List.length_take] at h1; omega
    exact h _ hm

theorem csum_span_eq (sb : cache_sb) : csum_span sb = (8, 200 + 8 * sb.keys) := by
  simp [csum_span, end_, node, offsetof_d, SB_LABEL_SIZE]
  omega

/-- The bytes `csum_set` hands to `crc64`, when the span lies in the record:
every member after `csum`, then the first `keys` entries of `d`. -/
theorem span_bytes (sb : cache_sb) :
    (sb.bytes.drop 8).take (200 + 8 * sb.keys) =
      sb.fixed_bytes ++ ((List.ofFn sb.d).take sb.keys).flatMap (le_bytes 8) := by
  have e1 : sb.bytes = le_bytes 8 sb.csum ++ (sb.fixed_bytes ++ u64_array_bytes sb.d) := by
    rw [cache_sb.bytes, List.append_assoc]
  have e2 : 200 + 8 * sb.keys = sb.fixed_bytes.length + 8 * sb.keys := by
    rw [length_fixed_bytes]
  rw [e1, List.drop_left' (length_le_bytes 8 sb.csum), e2, List.take_append,
    u64_array_bytes, take_flatMap_le_bytes]

theorem csum_set_eq (crc64 : List Nat → Nat) (sb : cache_sb) :
    csum_set crc64 sb =
      if sb.keys ≤ 256 then
        some (crc64 (sb.fixed_bytes ++ ((List.ofFn sb.d).take sb.keys).flatMap (le_bytes 8)))
      else none := by
  unfold csum_set
  rw [csum_span_eq]
  simp only [length_bytes, span_bytes]
  by_cases h : sb.keys ≤ 256
  · rw [if_pos h, if_pos (by omega)]
  · rw [if_neg h, if_neg (by omega)]

theorem slice_eq (l : List Nat) (k : Nat) :
    (l.take (208 + 8 * k)).drop 8 = (l.drop 8).take (200 + 8 * k) := by
  rw [List.drop_take]
  congr 1
  omega

/-- C7: `csum_set(sb)` hands `crc64` the span that starts at byte offset 8 and
ends at the byte offset `208 + 8 * keys` of the journal entry `d[keys]`, of
length `200 + 8 * keys`; when that span lies in the record (`keys ≤ 256`) the
value is `crc64` of exactly the bytes `[8, 208 + 8 * keys)` of the record, and
past that the span leaves the record. For any function `crc64` of the byte
span, a record that differs only in `csum`, or only in entries `d[j]` with
`j ≥ keys`, has the same `csum_set`. -/
theorem C7_csum_set_span (crc64 : List Nat → Nat) (sb : cache_sb) :
    csum_span sb = (8, 200 + 8 * sb.keys) ∧
    end_ sb = 208 + 8 * sb.keys ∧
    (sb.keys ≤ 256 →
      csum_set crc64 sb = some (crc64 ((sb.bytes.take (208 + 8 * sb.keys)).drop 8)) ∧
      ((sb.bytes.take (208 + 8 * sb.keys)).drop 8).length = 200 + 8 * sb.keys) ∧
    (256 < sb.keys → csum_set crc64 sb = none) ∧
    (∀ c : Nat, csum_set crc64 { sb with csum := c } = csum_set crc64 sb) ∧
    (∀ d' : Fin SB_JOURNAL_BUCKETS → Nat,
      (∀ j : Fin SB_JOURNAL_BUCKETS, j.val < sb.keys → d' j = sb.d j) →
      csum_set crc64 { sb with d := d' } = csum_set crc64 sb) := by
  refine ⟨csum_span_eq sb, ?_, ?_, ?_, ?_, ?_⟩
  · simp [end_, node, offsetof_d, SB_LABEL_SIZE]
  · intro hk
    constructor
    · rw [csum_set_eq, if_pos hk, slice_eq, span_bytes]
    · rw [slice_eq, List.length_take, List.length_drop, length_bytes]
      omega
  · intro hk
    rw [csum_set_eq, if_neg (by omega)]
  · intro c
    rw [csum_set_eq, csum_set_eq]
    rfl
  · intro d' hd
    rw [csum_set_eq, csum_set_eq]
    have e := take_ofFn_congr sb.d d' sb.keys hd
    have f : ({ sb with d := d' } : cache_sb).fixed_bytes = sb.fixed_bytes := rfl
    simp only [f, e]

/-- A generated getter on a record written by a generated setter. -/
theorem getter_after_setter (o1 w1 o2 w2 : Nat) (k : cache_sb) (v : Nat)
    (h1 : o1 < 64) (hw1 : w1 < 64) (h2 : o2 < 64) (hw2 : w2 < 64) :
    ((BITMASK_set o1 w1 k.flags v).map (store_flags k)).bind
        (fun k' => BITMASK_get o2 w2 k'.flags) =
      some ((((k.flags &&& not64 (((2 ^ w1 - 1) <<< o1) % 2 ^ 64))
        ||| (v <<< o1) % 2 ^ 64) >>> o2) &&& (2 ^ w2 - 1)) := by
  rw [setter_eq o1 w1 k v h1 hw1, Option.some_bind]
  exact BITMASK_get_eq o2 w2 _ h2 hw2

/-- C8: for every `cache_sb` and each of the four defined cache modes
(writethrough 0, writeback 1, writearound 2, none 3), `BDEV_CACHE_MODE` read
after `SET_BDEV_CACHE_MODE(sb, v)` returns `v`. -/
theorem C8_cache_mode_round_trip (sb : cache_sb) :
    (SET_BDEV_CACHE_MODE sb CACHE_MODE_WRITETHROUGH).bind BDEV_CACHE_MODE
      = some CACHE_MODE_WRITETHROUGH ∧
    (SET_BDEV_CACHE_MODE sb CACHE_MODE_WRITEBACK).bind BDEV_CACHE_MODE
      = some CACHE_MODE_WRITEBACK ∧
    (SET_BDEV_CACHE_MODE sb CACHE_MODE_WRITEAROUND).bind BDEV_CACHE_MODE
      = some CACHE_MODE_WRITEAROUND ∧
    (SET_BDEV_CACHE_MODE sb CACHE_MODE_NONE).bind BDEV_CACHE_MODE
      = some CACHE_MODE_NONE := by
  have key : ∀ v, v < 2 ^ 4 → (SET_BDEV_CACHE_MODE sb v).bind BDEV_CACHE_MODE = some v := by
    intro v hv
    have h := getter_after_setter 0 4 0 4 sb v (by decide) (by decide) (by decide) (by decide)
    rw [get_set_eq 0 4 sb.flags v (by decide) hv] at h
    exact h
  exact ⟨key _ (by decide), key _ (by decide), key _ (by decide), key _ (by decide)⟩

/-- C9: for every `cache_sb` and every `v` in `{0, 1, 2}` (LRU, FIFO, RANDOM),
`SET_CACHE_REPLACEMENT(sb, v)` returns a record on which `CACHE_REPLACEMENT`
returns `v` while `CACHE_SYNC` and `CACHE_DISCARD` return what they returned
before the write. -/
theorem C9_replacement_keeps_sync_discard (sb : cache_sb) (v : Nat)
    (hv : v = CACHE_REPLACEMENT_LRU ∨ v = CACHE_REPLACEMENT_FIFO
      ∨ v = CACHE_REPLACEMENT_RANDOM) :
    ∃ sb', SET_CACHE_REPLACEMENT sb v = some sb' ∧
      CACHE_REPLACEMENT sb' = some v ∧
      CACHE_SYNC sb' = CACHE_SYNC sb ∧
      CACHE_DISCARD sb' = CACHE_DISCARD sb := by
  have hv8 : v < 2 ^ 3 := by
    rcases hv with h | h | h <;> rw [h] <;> decide
  refine ⟨_, setter_eq 2 3 sb v (by decide) (by decide), ?_, ?_, ?_⟩
  · rw [CACHE_REPLACEMENT, BITMASK_get_eq 2 3 _ (by decide) (by decide)]
    exact congrArg some (get_set_eq 2 3 sb.flags v (by decide) hv8)
  · rw [CACHE_SYNC, CACHE_SYNC, BITMASK_get_eq 0 1 _ (by decide) (by decide),
      BITMASK_get_eq 0 1 _ (by decide) (by decide)]
    exact congrArg some (get_set_other 2 3 0 1 sb.flags v (by decide) hv8 (by decide))
  · rw [CACHE_DISCARD, CACHE_DISCARD, BITMASK_get_eq 1 1 _ (by decide) (by decide),
      BITMASK_get_eq 1 1 _ (by decide) (by decide)]
    exact congrArg some (get_set_other 2 3 1 1 sb.flags v (by decide) hv8 (by decide))

/-- C9 at `v = 1` (FIFO) on a record with `sync` and `discard` both set. -/
theorem C9_replacement_keeps_sync_discard_witness :
    ∃ sb', SET_CACHE_REPLACEMENT { sb_zero with flags := 3 } CACHE_REPLACEMENT_FIFO
        = some sb' ∧
      CACHE_REPLACEMENT sb' = some CACHE_REPLACEMENT_FIFO ∧
      CACHE_SYNC sb' = CACHE_SYNC { sb_zero with flags := 3 } ∧
      CACHE_DISCARD sb' = CACHE_DISCARD { sb_zero with flags := 3 } :=
  C9_replacement_keeps_sync_discard { sb_zero with flags := 3 } CACHE_REPLACEMENT_FIFO
    (Or.inr (Or.inl rfl))

/-- C10, as stated, fails at `v = 3`: `SET_CACHE_REPLACEMENT(sb, 3)` stores 3,
which `CACHE_REPLACEMENT` then returns, although 3 is none of 0, 1, 2. -/
theorem C10_three_is_stored :
    (SET_CACHE_REPLACEMENT sb_zero 3).bind CACHE_REPLACEMENT = some 3 ∧
    ¬ ((3 : Nat) = CACHE_REPLACEMENT_LRU ∨ (3 : Nat) = CACHE_REPLACEMENT_FIFO
      ∨ (3 : Nat) = CACHE_REPLACEMENT_RANDOM) := by
  decide

/-- C10, amended: the replacement-policy bitfield stores every 3-bit value.
For every `cache_sb` and every `v`, `CACHE_REPLACEMENT` after
`SET_CACHE_REPLACEMENT(sb, v)` returns `v mod 8`, so `v` is stored if and only
if `v < 8`: the values 3 to 7 are stored like 0, 1 and 2. -/
theorem C10_replacement_stores_three_bits (sb : cache_sb) (v : Nat) :
    (SET_CACHE_REPLACEMENT sb v).bind CACHE_REPLACEMENT = some (v % 8) ∧
    ((SET_CACHE_REPLACEMENT sb v).bind CACHE_REPLACEMENT = some v ↔ v < 8) := by
  have h : (SET_CACHE_REPLACEMENT sb v).bind CACHE_REPLACEMENT = some (v % 8) := by
    have h := getter_after_setter 2 3 2 3 sb v (by decide) (by decide) (by decide) (by decide)
    rw [get_set_mod 2 3 sb.flags v (by decide)] at h
    exact h
  refine ⟨h, ?_⟩
  rw [h, Option.some.injEq]
  omega

/-- C11: `bcache_magic` is exactly 16 bytes long and, read as unsigned bytes,
is the sequence c6 85 73 f6 4e 1a 45 ca 82 65 f5 7f 48 ba 6d 81, whether
`char` is signed or not; the `magic` member of every `cache_sb` has the same
length. -/
theorem C11_bcache_magic (char_signed : Bool) :
    (bcache_magic char_signed).length = 16 ∧
    (bcache_magic char_signed).map to_uchar =
      [0xc6, 0x85, 0x73, 0xf6, 0x4e, 0x1a, 0x45, 0xca,
       0x82, 0x65, 0xf5, 0x7f, 0x48, 0xba, 0x6d, 0x81] ∧
    (∀ sb : cache_sb, (u8_array_bytes sb.magic).length = (bcache_magic char_signed).length) := by
  refine ⟨?_, ?_, ?_⟩
  · cases char_signed <;> rfl
  · cases char_signed <;> decide
  · intro sb
    rw [length_u8_array_bytes]
    cases char_signed <;> rfl

/-- C12: decoding a superblock (a record carrying the magic) whose version is
2 yields `UnsupportedVersion`, whatever its checksum; the recognized versions
are exactly 0, 1, 3 and 4, and 2 is rejected although it is not greater than
`BCACHE_SB_MAX_VERSION`, which is 4. -/
theorem C12_version_2_unsupported (char_signed : Bool) (crc64 : List Nat → Nat)
    (sb : cache_sb)
    (hm : u8_array_bytes sb.magic = (bcache_magic char_signed).map to_uchar)
    (hv : sb.version = 2) :
    decode char_signed crc64 sb = Except.error DecodeError.UnsupportedVersion ∧
    (∀ v, version_recognized v = true ↔ v = 0 ∨ v = 1 ∨ v = 3 ∨ v = 4) ∧
    2 ≤ BCACHE_SB_MAX_VERSION ∧ BCACHE_SB_MAX_VERSION = 4 := by
  refine ⟨?_, ?_, by decide, rfl⟩
  · have h2 : version_recognized sb.version = false := by rw [hv]; decide
    simp [decode, hm, h2]
  · intro v
    simp [version_recognized, BCACHE_SB_VERSION_CDEV, BCACHE_SB_VERSION_BDEV,
      BCACHE_SB_VERSION_CDEV_WITH_UUID, BCACHE_SB_VERSION_BDEV_WITH_OFFSET, or_assoc]

/-- C12 at a record with the magic, version 2 and every other member zero. -/
theorem C12_version_2_unsupported_witness :
    decode true List.sum sb_version_2 = Except.error DecodeError.UnsupportedVersion ∧
    (∀ v, version_recognized v = true ↔ v = 0 ∨ v = 1 ∨ v = 3 ∨ v = 4) ∧
    2 ≤ BCACHE_SB_MAX_VERSION ∧ BCACHE_SB_MAX_VERSION = 4 :=
  C12_version_2_unsupported true List.sum sb_version_2 (by decide) rfl

/-! ## Laws of repeated and interleaved writes -/

theorem setter_written (o w : Nat) (k : cache_sb) (v : Nat) (ho : o < 64) (hw : w < 64) :
    (BITMASK_set o w k.flags v).map (store_flags k) =
      some (store_flags k (BITMASK_written o w k.flags v)) :=
  setter_eq o w k v ho hw

/-- Bit `i` of the written field, for an argument that fits the window. -/
theorem testBit_written_fit (o w f v i : Nat) (hv : v < 2 ^ w) :
    (BITMASK_written o w f v).testBit i =
      (decide (i < 64) &&
        (if o ≤ i ∧ i < o + w then v.testBit (i - o) else f.testBit i)) := by
  rw [BITMASK_written, testBit_set]
  by_cases h64 : i < 64
  · by_cases h1 : o ≤ i
    · by_cases h2 : i - o < w
      · have h3 : i < o + w := by omega
        simp [h64, h1, h2, h3]
      · have h3 : ¬ i < o + w := by omega
        have := testBit_of_lt_two_pow v w (i - o) hv (by omega)
        simp [h64, h1, h2, h3, this]
    · simp [h64, h1]
  · simp [h64]

theorem get_lt (o w f : Nat) : (f >>> o) &&& (2 ^ w - 1) < 2 ^ w := by
  rw [Nat.and_pow_two_sub_one_eq_mod]
  exact Nat.mod_lt _ (Nat.pos_pow_of_pos w (by decide))

/-- Writing back what the getter read changes nothing. -/
theorem written_get_self (o w f : Nat) (hf : f < 2 ^ 64) :
    BITMASK_written o w f ((f >>> o) &&& (2 ^ w - 1)) = f := by
  apply Nat.eq_of_testBit_eq
  intro i
  rw [testBit_written_fit o w f _ i (get_lt o w f), testBit_get]
  by_cases h64 : i < 64
  · by_cases h1 : o ≤ i ∧ i < o + w
    · have h2 : o + (i - o) = i := by omega
      have h3 : i - o < w := by omega
      simp [h64, h1, h2, h3]
    · simp [h64, h1]
  · have hfi := testBit_of_lt_two_pow f 64 i hf (by omega)
    simp [h64, hfi]

/-- A second write to a window overrides a first one that fitted it. -/
theorem written_written_same (o w f a b : Nat) (ha : a < 2 ^ w) :
    BITMASK_written o w (BITMASK_written o w f a) b = BITMASK_written o w f b := by
  apply Nat.eq_of_testBit_eq
  intro i
  have hb1 : (BITMASK_written o w (BITMASK_written o w f a) b).testBit i = _ :=
    testBit_set o w (BITMASK_written o w f a) b i
  have hb2 : (BITMASK_written o w f b).testBit i = _ := testBit_set o w f b i
  rw [hb1, hb2, testBit_written_fit o w f a i ha]
  by_cases h64 : i < 64
  · by_cases h1 : o ≤ i
    · by_cases h2 : i - o < w
      · simp [h64, h1, h2]
      · have h3 : ¬ i < o + w := by omega
        simp [h64, h1, h2, h3]
    · simp [h64, h1]
  · simp [h64]

/-- Writes to disjoint windows, each with an argument that fits, commute. -/
theorem written_comm (o1 w1 o2 w2 f a b : Nat)
    (ha : a < 2 ^ w1) (hb : b < 2 ^ w2) (hd : o2 + w2 ≤ o1 ∨ o1 + w1 ≤ o2) :
    BITMASK_written o2 w2 (BITMASK_written o1 w1 f a) b =
      BITMASK_written o1 w1 (BITMASK_written o2 w2 f b) a := by
  apply Nat.eq_of_testBit_eq
  intro i
  rw [testBit_written_fit o2 w2 (BITMASK_written o1 w1 f a) b i hb,
    testBit_written_fit o1 w1 (BITMASK_written o2 w2 f b) a i ha,
    testBit_written_fit o1 w1 f a i ha, testBit_written_fit o2 w2 f b i hb]
  by_cases h64 : i < 64
  · by_cases c1 : o1 ≤ i ∧ i < o1 + w1
    · have c2 : ¬ (o2 ≤ i ∧ i < o2 + w2) := by omega
      simp [h64, c1, c2]
    · by_cases c2 : o2 ≤ i ∧ i < o2 + w2
      · simp [h64, c1, c2]
      · simp [h64, c1, c2]
  · simp [h64]

/-- One generated setter after another, on the record. -/
theorem setter_then_setter (o1 w1 o2 w2 : Nat) (k : cache_sb) (a b : Nat)
    (h1 : o1 < 64) (hw1 : w1 < 64) (h2 : o2 < 64) (hw2 : w2 < 64) :
    ((BITMASK_set o1 w1 k.flags a).map (store_flags k)).bind
        (fun s => (BITMASK_set o2 w2 s.flags b).map (store_flags s)) =
      some (store_flags k (BITMASK_written o2 w2 (BITMASK_written o1 w1 k.flags a) b)) := by
  rw [setter_written o1 w1 k a h1 hw1, Option.some_bind,
    setter_written o2 w2 _ b h2 hw2]
  rfl

/-- A generated getter followed by the setter of the same window, on the
record: the record comes back. -/
theorem getter_then_setter (o w : Nat) (k : cache_sb) (ho : o < 64) (hw : w < 64)
    (hf : k.flags < 2 ^ 64) :
    (BITMASK_get o w k.flags).bind
        (fun v => (BITMASK_set o w k.flags v).map (store_flags k)) = some k := by
  rw [BITMASK_get_eq o w k.flags ho hw, Option.some_bind,
    setter_written o w k _ ho hw, written_get_self o w k.flags hf]
  rfl

theorem last_write_wins_window (o w : Nat) (k : cache_sb) (a b : Nat)
    (ho : o < 64) (hw : w < 64) (ha : a < 2 ^ w) :
    last_write_wins (fun k v => (BITMASK_set o w k.flags v).map (store_flags k)) k a b := by
  refine ⟨_, setter_written o w k b ho hw, ?_⟩
  have h := setter_then_setter o w o w k a b ho hw ho hw
  rw [written_written_same o w k.flags a b ha] at h
  exact h

theorem setters_commute_windows (o1 w1 o2 w2 : Nat) (k : cache_sb) (a b : Nat)
    (h1 : o1 + w1 ≤ 64) (hw1 : w1 < 64) (h2 : o2 + w2 ≤ 64) (hw2 : w2 < 64)
    (p1 : 1 ≤ w1) (p2 : 1 ≤ w2)
    (ha : a < 2 ^ w1) (hb : b < 2 ^ w2) (hd : o2 + w2 ≤ o1 ∨ o1 + w1 ≤ o2) :
    setters_commute
      (fun k v => (BITMASK_set o1 w1 k.flags v).map (store_flags k))
      (fun k v => (BITMASK_set o2 w2 k.flags v).map (store_flags k))
      (fun k => BITMASK_get o1 w1 k.flags) (fun k => BITMASK_get o2 w2 k.flags) k a b := by
  have q1 : o1 < 64 := by omega
  have q2 : o2 < 64 := by omega
  refine ⟨⟨_, setter_then_setter o1 w1 o2 w2 k a b q1 hw1 q2 hw2, ?_⟩, ?_, ?_⟩
  · have h := setter_then_setter o2 w2 o1 w1 k b a q2 hw2 q1 hw1
    rw [← written_comm o1 w1 o2 w2 k.flags a b ha hb hd] at h
    exact h
  · have h := getter_after_setter o1 w1 o2 w2 k a q1 hw1 q2 hw2
    rw [get_set_other o1 w1 o2 w2 k.flags a h2 ha hd] at h
    rw [h]
    exact (BITMASK_get_eq o2 w2 k.flags q2 hw2).symm
  · have h := getter_after_setter o2 w2 o1 w1 k b q2 hw2 q1 hw1
    rw [get_set_other o2 w2 o1 w1 k.flags b h1 hb (by omega)] at h
    rw [h]
    exact (BITMASK_get_eq o1 w1 k.flags q1 hw1).symm

/-! ## The claims on repeated writes, aliasing and ranges -/

/-- C13: for every `cache_sb` (whose `flags` is a 64-bit value) and each of
the five accessors `X`, `SET_X(sb, X(sb))` returns the record `sb` itself,
`flags` included. -/
theorem C13_get_then_set (sb : cache_sb) (hf : sb.flags < 2 ^ 64) :
    (CACHE_SYNC sb).bind (SET_CACHE_SYNC sb) = some sb ∧
    (CACHE_DISCARD sb).bind (SET_CACHE_DISCARD sb) = some sb ∧
    (CACHE_REPLACEMENT sb).bind (SET_CACHE_REPLACEMENT sb) = some sb ∧
    (BDEV_CACHE_MODE sb).bind (SET_BDEV_CACHE_MODE sb) = some sb ∧
    (BDEV_STATE sb).bind (SET_BDEV_STATE sb) = some sb :=
  ⟨getter_then_setter 0 1 sb (by decide) (by decide) hf,
   getter_then_setter 1 1 sb (by decide) (by decide) hf,
   getter_then_setter 2 3 sb (by decide) (by decide) hf,
   getter_then_setter 0 4 sb (by decide) (by decide) hf,
   getter_then_setter 61 2 sb (by decide) (by decide) hf⟩

/-- C13 at a record with `flags = 2 ^ 63 + 45`. -/
theorem C13_get_then_set_witness :
    (CACHE_SYNC { sb_zero with flags := 2 ^ 63 + 45 }).bind
        (SET_CACHE_SYNC { sb_zero with flags := 2 ^ 63 + 45 })
      = some { sb_zero with flags := 2 ^ 63 + 45 } ∧
    (BDEV_STATE { sb_zero with flags := 2 ^ 63 + 45 }).bind
        (SET_BDEV_STATE { sb_zero with flags := 2 ^ 63 + 45 })
      = some { sb_zero with flags := 2 ^ 63 + 45 } :=
  ⟨(C13_get_then_set { sb_zero with flags := 2 ^ 63 + 45 } (by decide)).1,
   (C13_get_then_set { sb_zero with flags := 2 ^ 63 + 45 } (by decide)).2.2.2.2⟩

/-- C14: for every `cache_sb`, each of the five accessors `X` of width `w`,
every `a < 2 ^ w` and every `b`, `SET_X(b)` after `SET_X(a)` gives the record
that `SET_X(b)` alone gives; with `b = a`, the setter is idempotent for
in-range values. -/
theorem C14_last_write_wins (sb : cache_sb) (a b : Nat) :
    (a < 2 ^ 1 → last_write_wins SET_CACHE_SYNC sb a b
      ∧ last_write_wins SET_CACHE_SYNC sb a a) ∧
    (a < 2 ^ 1 → last_write_wins SET_CACHE_DISCARD sb a b
      ∧ last_write_wins SET_CACHE_DISCARD sb a a) ∧
    (a < 2 ^ 3 → last_write_wins SET_CACHE_REPLACEMENT sb a b
      ∧ last_write_wins SET_CACHE_REPLACEMENT sb a a) ∧
    (a < 2 ^ 4 → last_write_wins SET_BDEV_CACHE_MODE sb a b
      ∧ last_write_wins SET_BDEV_CACHE_MODE sb a a) ∧
    (a < 2 ^ 2 → last_write_wins SET_BDEV_STATE sb a b
      ∧ last_write_wins SET_BDEV_STATE sb a a) :=
  ⟨fun ha => ⟨last_write_wins_window 0 1 sb a b (by decide) (by decide) ha,
      last_write_wins_window 0 1 sb a a (by decide) (by decide) ha⟩,
   fun ha => ⟨last_write_wins_window 1 1 sb a b (by decide) (by decide) ha,
      last_write_wins_window 1 1 sb a a (by decide) (by decide) ha⟩,
   fun ha => ⟨last_write_wins_window 2 3 sb a b (by decide) (by decide) ha,
      last_write_wins_window 2 3 sb a a (by decide) (by decide) ha⟩,
   fun ha => ⟨last_write_wins_window 0 4 sb a b (by decide) (by decide) ha,
      last_write_wins_window 0 4 sb a a (by decide) (by decide) ha⟩,
   fun ha => ⟨last_write_wins_window 61 2 sb a b (by decide) (by decide) ha,
      last_write_wins_window 61 2 sb a a (by decide) (by decide) ha⟩⟩

/-- C14 at `SET_BDEV_STATE`, first 3 (stale) and then the out-of-range 5. -/
theorem C14_last_write_wins_witness :
    last_write_wins SET_BDEV_STATE sb_zero 3 5 ∧ last_write_wins SET_BDEV_STATE sb_zero 3 3 :=
  (C14_last_write_wins sb_zero 3 5).2.2.2.2 (by decide)

/-- C15: for every `cache_sb` and arguments that fit the widths, any two
distinct setters among `SET_CACHE_SYNC`, `SET_CACHE_DISCARD` and
`SET_CACHE_REPLACEMENT`, and likewise `SET_BDEV_CACHE_MODE` and
`SET_BDEV_STATE`, give the same record in either order, and each leaves the
result of the getter of the other unchanged. -/
theorem C15_setters_commute (sb : cache_sb) (a b : Nat) :
    (a < 2 ^ 1 → b < 2 ^ 1 →
      setters_commute SET_CACHE_SYNC SET_CACHE_DISCARD CACHE_SYNC CACHE_DISCARD sb a b) ∧
    (a < 2 ^ 1 → b < 2 ^ 3 →
      setters_commute SET_CACHE_SYNC SET_CACHE_REPLACEMENT CACHE_SYNC CACHE_REPLACEMENT
        sb a b) ∧
    (a < 2 ^ 1 → b < 2 ^ 3 →
      setters_commute SET_CACHE_DISCARD SET_CACHE_REPLACEMENT CACHE_DISCARD
        CACHE_REPLACEMENT sb a b) ∧
    (a < 2 ^ 4 → b < 2 ^ 2 →
      setters_commute SET_BDEV_CACHE_MODE SET_BDEV_STATE BDEV_CACHE_MODE BDEV_STATE
        sb a b) :=
  ⟨fun ha hb => setters_commute_windows 0 1 1 1 sb a b (by decide) (by decide) (by decide)
      (by decide) (by decide) (by decide) ha hb (by decide),
   fun ha hb => setters_commute_windows 0 1 2 3 sb a b (by decide) (by decide) (by decide)
      (by decide) (by decide) (by decide) ha hb (by decide),
   fun ha hb => setters_commute_windows 1 1 2 3 sb a b (by decide) (by decide) (by decide)
      (by decide) (by decide) (by decide) ha hb (by decide),
   fun ha hb => setters_commute_windows 0 4 61 2 sb a b (by decide) (by decide) (by decide)
      (by decide) (by decide) (by decide) ha hb (by decide)⟩

/-- C15 at `SET_BDEV_CACHE_MODE(1)` and `SET_BDEV_STATE(2)` on the all-zero
record. -/
theorem C15_setters_commute_witness :
    setters_commute SET_BDEV_CACHE_MODE SET_BDEV_STATE BDEV_CACHE_MODE BDEV_STATE
      sb_zero 1 2 :=
  (C15_setters_commute sb_zero 1 2).2.2.2 (by decide) (by decide)

/-- A getter as a quotient and a remainder. -/
theorem BITMASK_get_div_mod (o w f : Nat) (ho : o < 64) (hw : w < 64) :
    BITMASK_get o w f = some (f / 2 ^ o % 2 ^ w) := by
  rw [BITMASK_get_eq o w f ho hw, Nat.and_pow_two_sub_one_eq_mod, Nat.shiftRight_eq_div_pow]

/-- C16, as stated, fails when bit 3 of `flags` is set: with `flags = 8`,
`BDEV_CACHE_MODE` is 8 while `CACHE_SYNC` and `CACHE_DISCARD` are 0 and
`CACHE_REPLACEMENT` is 2, so `sync + 2 * discard + 4 * (replacement mod 2)`
is 0. -/
theorem C16_bit_3_counterexample :
    BDEV_CACHE_MODE { sb_zero with flags := 8 } = some 8 ∧
    CACHE_SYNC { sb_zero with flags := 8 } = some 0 ∧
    CACHE_DISCARD { sb_zero with flags := 8 } = some 0 ∧
    CACHE_REPLACEMENT { sb_zero with flags := 8 } = some 2 ∧
    (8 : Nat) ≠ 0 + 2 * 0 + 4 * (2 % 2) := by
  decide

/-- C16, amended: the cache-device and backing-device accessors read the same
low bits of `flags` and none reads `version`: for every `cache_sb`,
`BDEV_CACHE_MODE(sb) = CACHE_SYNC(sb) + 2 * CACHE_DISCARD(sb)
+ 4 * (CACHE_REPLACEMENT(sb) mod 4)`, also after `version` is changed to any
value; so after `SET_BDEV_CACHE_MODE(sb, v)` with `v < 16` the cache-device
getters return the bits of `v`, and on the all-zero record
`SET_BDEV_CACHE_MODE(sb, 1)` turns `CACHE_SYNC` from 0 into 1. -/
theorem C16_accessors_alias (sb : cache_sb) :
    (∀ ver : Nat, ∃ m s d r,
      BDEV_CACHE_MODE { sb with version := ver } = some m ∧
      CACHE_SYNC { sb with version := ver } = some s ∧
      CACHE_DISCARD { sb with version := ver } = some d ∧
      CACHE_REPLACEMENT { sb with version := ver } = some r ∧
      BDEV_CACHE_MODE sb = some m ∧ CACHE_SYNC sb = some s ∧
      CACHE_DISCARD sb = some d ∧ CACHE_REPLACEMENT sb = some r ∧
      m = s + 2 * d + 4 * (r % 4)) ∧
    (∀ v, v < 2 ^ 4 → ∃ sb' r, SET_BDEV_CACHE_MODE sb v = some sb' ∧
      CACHE_SYNC sb' = some (v % 2) ∧ CACHE_DISCARD sb' = some (v / 2 % 2) ∧
      CACHE_REPLACEMENT sb' = some r ∧ r % 4 = v / 4) ∧
    (CACHE_SYNC sb_zero = some 0 ∧
      (SET_BDEV_CACHE_MODE sb_zero CACHE_MODE_WRITEBACK).bind CACHE_SYNC = some 1) := by
  refine ⟨?_, ?_, ?_⟩
  · intro ver
    refine ⟨_, _, _, _, BITMASK_get_div_mod 0 4 sb.flags (by decide) (by decide),
      BITMASK_get_div_mod 0 1 sb.flags (by decide) (by decide),
      BITMASK_get_div_mod 1 1 sb.flags (by decide) (by decide),
      BITMASK_get_div_mod 2 3 sb.flags (by decide) (by decide),
      BITMASK_get_div_mod 0 4 sb.flags (by decide) (by decide),
      BITMASK_get_div_mod 0 1 sb.flags (by decide) (by decide),
      BITMASK_get_div_mod 1 1 sb.flags (by decide) (by decide),
      BITMASK_get_div_mod 2 3 sb.flags (by decide) (by decide), ?_⟩
    simp only [Nat.pow_zero, Nat.div_one, Nat.reducePow]
    omega
  · intro v hv
    have hm : (BITMASK_written 0 4 sb.flags v) / 2 ^ 0 % 2 ^ 4 = v := by
      have h := get_set_eq 0 4 sb.flags v (by decide) hv
      rw [Nat.and_pow_two_sub_one_eq_mod, Nat.shiftRight_eq_div_pow] at h
      exact h
    simp only [Nat.pow_zero, Nat.div_one, Nat.reducePow] at hm
    have e1 := BITMASK_get_div_mod 0 1 (BITMASK_written 0 4 sb.flags v) (by decide) (by decide)
    have e2 := BITMASK_get_div_mod 1 1 (BITMASK_written 0 4 sb.flags v) (by decide) (by decide)
    have e3 := BITMASK_get_div_mod 2 3 (BITMASK_written 0 4 sb.flags v) (by decide) (by decide)
    refine ⟨_, _, setter_written 0 4 sb v (by decide) (by decide), ?_, ?_, e3, ?_⟩
    · rw [CACHE_SYNC, show (store_flags sb (BITMASK_written 0 4 sb.flags v)).flags
        = BITMASK_written 0 4 sb.flags v from rfl, e1]
      congr 1
      simp only [Nat.pow_zero, Nat.div_one, Nat.reducePow]
      omega
    · rw [CACHE_DISCARD, show (store_flags sb (BITMASK_written 0 4 sb.flags v)).flags
        = BITMASK_written 0 4 sb.flags v from rfl, e2]
      congr 1
      simp only [Nat.reducePow]
      omega
    · have hv16 : v < 16 := hv
      simp only [Nat.reducePow]
      omega
  · decide

/-- C17: for every `cache_sb`, `CACHE_SYNC` and `CACHE_DISCARD` return 0 or 1,
`CACHE_REPLACEMENT` a value below 8, `BDEV_CACHE_MODE` a value below 16 and
`BDEV_STATE` a value below 4, that is one of the four defined states (none,
clean, dirty, stale); and `BDEV_STATE` returns the same on any record whose
`flags` differs at most in bit 63. -/
theorem C17_getters_fit_width (sb : cache_sb) :
    (∃ s, CACHE_SYNC sb = some s ∧ (s = 0 ∨ s = 1)) ∧
    (∃ d, CACHE_DISCARD sb = some d ∧ (d = 0 ∨ d = 1)) ∧
    (∃ r, CACHE_REPLACEMENT sb = some r ∧ r < 8) ∧
    (∃ m, BDEV_CACHE_MODE sb = some m ∧ m < 16) ∧
    (∃ t, BDEV_STATE sb = some t ∧ t < 4 ∧
      (t = BDEV_STATE_NONE ∨ t = BDEV_STATE_CLEAN ∨ t = BDEV_STATE_DIRTY
        ∨ t = BDEV_STATE_STALE)) ∧
    (∀ sb' : cache_sb, (∀ i, i ≠ 63 → sb'.flags.testBit i = sb.flags.testBit i) →
      BDEV_STATE sb' = BDEV_STATE sb) := by
  refine ⟨⟨_, BITMASK_get_div_mod 0 1 sb.flags (by decide) (by decide), ?_⟩,
    ⟨_, BITMASK_get_div_mod 1 1 sb.flags (by decide) (by decide), ?_⟩,
    ⟨_, BITMASK_get_div_mod 2 3 sb.flags (by decide) (by decide), ?_⟩,
    ⟨_, BITMASK_get_div_mod 0 4 sb.flags (by decide) (by decide), ?_⟩,
    ⟨_, BITMASK_get_div_mod 61 2 sb.flags (by decide) (by decide), ?_, ?_⟩, ?_⟩
  · omega
  · omega
  · omega
  · omega
  · omega
  · simp only [BDEV_STATE_NONE, BDEV_STATE_CLEAN, BDEV_STATE_DIRTY, BDEV_STATE_STALE]
    omega
  · intro sb' h
    rw [BDEV_STATE, BDEV_STATE, BITMASK_get_eq 61 2 _ (by decide) (by decide),
      BITMASK_get_eq 61 2 _ (by decide) (by decide)]
    congr 1
    apply Nat.eq_of_testBit_eq
    intro i
    rw [testBit_get, testBit_get]
    by_cases hi : i < 2
    · rw [h (61 + i) (by omega)]
    · simp [hi]

/-- C18: for every `cache_sb` with `keys ≤ SB_JOURNAL_BUCKETS` (256), the span
read by `csum_set` starts at byte 8, has the length `200 + 8 * keys` (the
subtraction `end(i) - (i + 8)` does not go below zero) and ends at or before
`sizeof(struct cache_sb)`, which is 2256, so `csum_set` has a value. Nothing
bounds `keys` itself: with any larger 16-bit `keys` in its place the span ends
past the record. -/
theorem C18_span_in_record (crc64 : List Nat → Nat) (sb : cache_sb)
    (hk : sb.keys ≤ SB_JOURNAL_BUCKETS) :
    (csum_span sb).1 = 8 ∧ (csum_span sb).2 = 200 + 8 * sb.keys ∧
    8 ≤ end_ sb ∧
    (csum_span sb).1 + (csum_span sb).2 ≤ sizeof_cache_sb ∧
    sizeof_cache_sb = 2256 ∧ sb.bytes.length = sizeof_cache_sb ∧
    (∃ c, csum_set crc64 sb = some c) ∧
    (∀ k, SB_JOURNAL_BUCKETS < k → k < 2 ^ 16 →
      sizeof_cache_sb < (csum_span { sb with keys := k }).1
          + (csum_span { sb with keys := k }).2 ∧
      csum_set crc64 { sb with keys := k } = none) := by
  have hs : sizeof_cache_sb = 2256 := by decide
  have hj : SB_JOURNAL_BUCKETS = 256 := rfl
  rw [hj] at hk
  refine ⟨?_, ?_, ?_, ?_, hs, ?_, ?_, ?_⟩
  · rw [csum_span_eq]
  · rw [csum_span_eq]
  · simp only [end_, node, offsetof_d, SB_LABEL_SIZE]
    omega
  · rw [csum_span_eq, hs]
    show 8 + (200 + 8 * sb.keys) ≤ 2256
    omega
  · rw [length_bytes, hs]
  · exact ⟨_, by rw [csum_set_eq, if_pos hk]⟩
  · intro k hk1 _
    rw [hj] at hk1
    constructor
    · rw [csum_span_eq, hs]
      show 2256 < 8 + (200 + 8 * k)
      omega
    · rw [csum_set_eq, if_neg]
      show ¬ k ≤ 256
      omega

/-- C18 at a record with the full 256 journal entries. -/
theorem C18_span_in_record_witness :
    (csum_span { sb_zero with keys := 256 }).1
        + (csum_span { sb_zero with keys := 256 }).2 ≤ sizeof_cache_sb ∧
    (∃ c, csum_set List.sum { sb_zero with keys := 256 } = some c) :=
  ⟨(C18_span_in_record List.sum { sb_zero with keys := 256 } (by decide)).2.2.2.1,
   (C18_span_in_record List.sum { sb_zero with keys := 256 } (by decide)).2.2.2.2.2.2.1⟩

end Bcache
